import Mathlib

/-!
A shallow embedding of the search-operation module of the python3-ldap
client (`ldap3/operation/search.py`): the assertion value normalizer, the
leaf match classifier, the filter parser (scanner/state machine), the
filter compiler and decompiler, the search operation builder and the
response decoders, together with theorems checking the specification's
claims against them.

Python strings are modelled as `List Char`.  Python exceptions are
modelled by an explicit error type (`PyError`) distinguishing the
module's `LDAPException` messages from interpreter-level errors
(ValueError, AttributeError, IndexError, KeyError) that escape on buggy
paths.  Fallible functions return `Except PyError _`.
-/

/-- Convert a Lean string literal to the `List Char` representation used
throughout the embedding. -/
def chars (s : String) : List Char := s.data

/-- Python `string.whitespace` membership: the characters stripped by
`str.strip()` and skipped by the scanner. -/
def isPySpace (c : Char) : Bool :=
  c = ' ' || c = '\t' || c = '\n' || c = '\r' || c = '\x0b' || c = '\x0c'

/-- Python `str.strip()`: remove leading and trailing whitespace. -/
def pyStrip (s : List Char) : List Char :=
  ((s.dropWhile isPySpace).reverse.dropWhile isPySpace).reverse

/-- Python `needle in hay` substring containment. -/
def strContains : List Char → List Char → Bool
  | [], needle => needle.isEmpty
  | c :: t, needle => needle.isPrefixOf (c :: t) || strContains t needle

/-- Python `hay.endswith(u)`. -/
def strEndsWith (s u : List Char) : Bool :=
  u.reverse.isPrefixOf s.reverse

/-- Split a string at the first occurrence of `sep`: returns the parts
before and after the separator, or `none` when `sep` does not occur. -/
def splitFirst (sep : List Char) : List Char → Option (List Char × List Char)
  | [] => if sep.isEmpty then some ([], []) else none
  | c :: t =>
    if sep.isPrefixOf (c :: t) then some ([], (c :: t).drop sep.length)
    else
      match splitFirst sep t with
      | some (l, r) => some (c :: l, r)
      | none => none

/-- Python `s.partition(sep)`, keeping only the parts before and after
the separator: `(head, tail)` at the first occurrence, `(s, "")` when
`sep` does not occur. -/
def pyPartition (sep s : List Char) : List Char × List Char :=
  match splitFirst sep s with
  | some (l, r) => (l, r)
  | none => (s, [])

/-- Worker for `pySplit`; the fuel is an upper bound on the number of
characters scanned, always instantiated with the full string length. -/
def pySplitAux (sep : List Char) : Nat → List Char → List Char → List (List Char)
  | _, [], acc => [acc.reverse]
  | 0, s, acc => [acc.reverse ++ s]
  | fuel + 1, c :: t, acc =>
    if sep.isPrefixOf (c :: t) then
      acc.reverse :: pySplitAux sep fuel (t.drop (sep.length - 1)) []
    else
      pySplitAux sep fuel t (c :: acc)

/-- Python `s.split(sep)` for a non-empty separator: leftmost,
non-overlapping splitting into the list of parts between occurrences. -/
def pySplit (sep s : List Char) : List (List Char) :=
  pySplitAux sep s.length s []

/-- Worker for `pyReplace`; fuel as in `pySplitAux`. -/
def pyReplaceAux (old new : List Char) : Nat → List Char → List Char
  | _, [] => []
  | 0, s => s
  | fuel + 1, c :: t =>
    if old.isPrefixOf (c :: t) then
      new ++ pyReplaceAux old new fuel (t.drop (old.length - 1))
    else
      c :: pyReplaceAux old new fuel t

/-- Python `s.replace(old, new)` for a non-empty `old`: replace every
leftmost non-overlapping occurrence. -/
def pyReplace (s old new : List Char) : List Char :=
  pyReplaceAux old new s.length s

/-- Python `s.lower()` (the inputs here are ASCII). -/
def pyLower (s : List Char) : List Char := s.map Char.toLower

/-- Join a list of parts with a separator between consecutive parts
(the inverse image of `pySplit`). -/
def joinSep (sep : List Char) : List (List Char) → List Char
  | [] => []
  | [p] => p
  | p :: q :: ps => p ++ sep ++ joinSep sep (q :: ps)

/-- Errors that can escape the module's functions: the module's own
`LDAPException` with its message, and the Python interpreter-level
exceptions raised on buggy paths (`ValueError` from a mismatched tuple
unpack, `AttributeError` from attribute access on `None`, `IndexError`
from indexing an empty list, `KeyError` from a missing assertion key). -/
inductive PyError where
  | ldap (msg : String)
  | valueError
  | attributeError
  | indexError
  | keyError
deriving DecidableEq, Repr

/-- Node tags of the filter tree (the module-level integer constants
`ROOT`, `AND`, `OR`, `NOT`, `MATCH_APPROX`, `MATCH_GREATER_OR_EQUAL`,
`MATCH_LESS_OR_EQUAL`, `MATCH_EXTENSIBLE`, `MATCH_PRESENT`,
`MATCH_SUBSTRING`, `MATCH_EQUAL`). -/
inductive FTag where
  | root | and | or | not
  | approx | greaterOrEqual | lessOrEqual
  | extensible | present | substring | equal
deriving DecidableEq, Repr

/-- The `assertion` dictionary attached to a leaf `FilterNode`, one shape
per family of leaf tags. `dnAttributes` is `none` (Python `None`) until
the literal `dn` token sets it to `some true`. -/
inductive Assertion where
  | av (attr value : List Char)
  | pres (attr : List Char)
  | sub (attr : List Char) (initial : Option (List Char))
        (anyPart : List (List Char)) (final : Option (List Char))
  | ext (attr : Option (List Char)) (value : List Char)
        (matchingRule : Option (List Char)) (dnAttributes : Option Bool)
deriving DecidableEq, Repr

/-- A node of the filter tree: `tag`, optional `assertion` (present only
on leaf nodes), and the ordered list of children `elements`.  The Python
`parent` back-reference is represented during parsing by an explicit
stack of open frames instead. -/
inductive FilterNode where
  | mk (tag : FTag) (assertion : Option Assertion) (elements : List FilterNode)

/-- Tag accessor of a `FilterNode`. -/
def FilterNode.tag : FilterNode → FTag
  | .mk t _ _ => t

/-- Assertion accessor of a `FilterNode`. -/
def FilterNode.assertion : FilterNode → Option Assertion
  | .mk _ a _ => a

/-- Children accessor of a `FilterNode`. -/
def FilterNode.elements : FilterNode → List FilterNode
  | .mk _ _ es => es

/-- Assertion value normalizer (`validate_assertion_value`): trim
surrounding whitespace and replace the literal escape sequences.  Note
that the source computes the `\00` replacement but discards its result
(`value.replace(r'\00', chr(0))` without assignment), so the returned
value is unchanged on that step; the guards mirror the source's
redundant `in` checks. -/
def validate_assertion_value (value : List Char) : List Char :=
  let v1 := pyStrip value
  let v2 := if strContains v1 (chars "\\2a") then pyReplace v1 (chars "\\2a") ['*'] else v1
  let v3 := if strContains v2 (chars "\\2A") then pyReplace v2 (chars "\\2A") ['*'] else v2
  let v4 := if strContains v3 (chars "\\28") then pyReplace v3 (chars "\\28") ['('] else v3
  let v5 := if strContains v4 (chars "\\29") then pyReplace v4 (chars "\\29") [')'] else v4
  let v6 := if strContains v5 (chars "\\5c") then pyReplace v5 (chars "\\5c") ['\\'] else v5
  let v7 := if strContains v6 (chars "\\5C") then pyReplace v6 (chars "\\5C") ['\\'] else v6
  let v8 := v7
  v8

/-- Truthiness of an optional string (Python `if x:` on a value that is
either `None` or a string): true when present and non-empty. -/
def optTruthy : Option (List Char) → Bool
  | none => false
  | some v => !v.isEmpty

/-- The extensible-filter segment analysis of `evaluate_match` (the
nested conditionals on `left_part.split(':')`): returns the optional
attribute name, optional matching rule and optional dn-attributes flag,
or the `invalid extensible filter` error. -/
def extensibleParts (efl : List (List Char)) :
    Except PyError (Option (List Char) × Option (List Char) × Option Bool) :=
  if efl.headD [] = [] then
    if efl.length = 2 ∧ pyStrip (pyLower (efl.getD 1 [])) ≠ chars "dn" then
      .ok (none, some (validate_assertion_value (efl.getD 1 [])), none)
    else if efl.length = 3 ∧ pyStrip (pyLower (efl.getD 1 [])) = chars "dn" then
      .ok (none, some (validate_assertion_value (efl.getD 2 [])), some true)
    else
      .error (.ldap "invalid extensible filter")
  else if efl.length ≤ 3 then
    if efl.length = 1 then
      .ok (some (efl.getD 0 []), none, none)
    else if efl.length = 2 then
      if pyStrip (pyLower (efl.getD 1 [])) = chars "dn" then
        .ok (some (efl.getD 0 []), none, some true)
      else
        .ok (some (efl.getD 0 []), some (validate_assertion_value (efl.getD 1 [])), none)
    else if efl.length = 3 ∧ pyStrip (pyLower (efl.getD 1 [])) = chars "dn" then
      .ok (some (efl.getD 0 []), some (validate_assertion_value (efl.getD 2 [])), some true)
    else
      .error (.ldap "invalid extensible filter")
  else
    .ok (none, none, none)

/-- Leaf match classifier (`evaluate_match`): strip the clause and
classify it by the ordered operator checks, producing a leaf
`FilterNode`.  The `~=` branch mirrors the source's 3-way unpack of
`match.split('~=')`, which raises `ValueError` unless the split yields
exactly three parts. -/
def evaluate_match (match0 : List Char) : Except PyError FilterNode :=
  let m := pyStrip match0
  if strContains m (chars "~=") then
    match pySplit (chars "~=") m with
    | [left_part, _, right_part] =>
      .ok (FilterNode.mk .approx
        (some (.av (pyStrip left_part) (validate_assertion_value right_part))) [])
    | _ => .error .valueError
  else if strContains m (chars ">=") then
    let p := pyPartition (chars ">=") m
    .ok (FilterNode.mk .greaterOrEqual
      (some (.av (pyStrip p.1) (validate_assertion_value p.2))) [])
  else if strContains m (chars "<=") then
    let p := pyPartition (chars "<=") m
    .ok (FilterNode.mk .lessOrEqual
      (some (.av (pyStrip p.1) (validate_assertion_value p.2))) [])
  else if strContains m (chars ":=") then
    let p := pyPartition (chars ":=") m
    match extensibleParts (pySplit [':'] p.1) with
    | .error e => .error e
    | .ok (attrN, mrN, dnN) =>
      if ¬ optTruthy attrN ∧ ¬ optTruthy mrN then
        .error (.ldap "invalid extensible filter")
      else
        .ok (FilterNode.mk .extensible
          (some (.ext
            (if optTruthy attrN then some (pyStrip (attrN.getD [])) else none)
            (validate_assertion_value p.2)
            (if optTruthy mrN then some (pyStrip (mrN.getD [])) else none)
            dnN)) [])
  else if strEndsWith m (chars "=*") then
    .ok (FilterNode.mk .present (some (.pres m.dropLast.dropLast)) [])
  else if strContains m ['='] ∧ strContains m ['*'] then
    let p := pyPartition ['='] m
    let substrings := pySplit ['*'] p.2
    let s0 := substrings.headD []
    let sN := substrings.getLastD []
    .ok (FilterNode.mk .substring
      (some (.sub p.1
        (if s0 ≠ [] then some (validate_assertion_value s0) else none)
        (((substrings.drop 1).dropLast.filter (fun ss => ss ≠ [])).map validate_assertion_value)
        (if sN ≠ [] then some (validate_assertion_value sN) else none))) [])
  else if strContains m ['='] then
    let p := pyPartition ['='] m
    .ok (FilterNode.mk .equal
      (some (.av (pyStrip p.1) (validate_assertion_value p.2))) [])
  else
    .error (.ldap "invalid matching assertion")

/-- Scanner states of `parse_filter` (`SEARCH_OPEN`,
`SEARCH_OPEN_OR_CLOSE`, `SEARCH_MATCH_OR_CLOSE`,
`SEARCH_MATCH_OR_CONTROL`). -/
inductive SState where
  | sOpen | sOpenOrClose | sMatchOrClose | sMatchOrControl
deriving DecidableEq, Repr

/-- An open boolean-operator node under construction: its tag and the
children appended to it so far, in order.  Frames replace the source's
mutable nodes with `parent` back-references. -/
structure Frame where
  tag : FTag
  elems : List FilterNode

/-- The scanner's mutable state: current scanner state, the stack of
open operator frames above the synthetic `ROOT` (innermost first), the
children appended to `ROOT` so far, whether the cursor has ascended past
`ROOT` (Python `current_node = None`), the pending token start offset,
the whitespace-skipping flag and the `just_closed` flag. -/
structure PState where
  st : SState
  stack : List Frame
  rootElems : List FilterNode
  cursorNone : Bool
  startPos : Option Nat
  skipWs : Bool
  justClosed : Bool

/-- Tag of the node the cursor points at (`current_node.tag`):
the innermost open frame, or `ROOT` when no frame is open. -/
def currentTag (ps : PState) : FTag :=
  match ps.stack with
  | [] => .root
  | f :: _ => f.tag

/-- Number of children of the node the cursor points at
(`len(current_node.elements)`). -/
def currentElemsLen (ps : PState) : Nat :=
  match ps.stack with
  | [] => ps.rootElems.length
  | f :: _ => f.elems.length

/-- Append a finished leaf node to the node the cursor points at
(`current_node.append(...)`). -/
def appendLeaf (leaf : FilterNode) (ps : PState) : Except PyError PState :=
  if ps.cursorNone then .error .attributeError
  else
    match ps.stack with
    | [] => .ok { ps with rootElems := ps.rootElems ++ [leaf] }
    | f :: rest => .ok { ps with stack := ⟨f.tag, f.elems ++ [leaf]⟩ :: rest }

/-- One step of the `parse_filter` character scan, mirroring the source's
branch chain: whitespace skipping, `(` on an expect-open state, a boolean
operator on expect-match-or-control, `)` on a close-accepting state
(ascending when `just_closed`, else finalizing the captured token through
`evaluate_match`), a token character, and the `malformed filter`
fallback.  `s` is the whole (stripped) filter string, used to extract the
captured token span. -/
def pstep (s : List Char) (pos : Nat) (c : Char) (ps : PState) : Except PyError PState :=
  if ps.skipWs ∧ isPySpace c then
    .ok ps
  else if (ps.st = .sOpen ∨ ps.st = .sOpenOrClose) ∧ c = '(' then
    .ok { ps with st := .sMatchOrControl, justClosed := false }
  else if ps.st = .sMatchOrControl ∧ (c = '&' ∨ c = '!' ∨ c = '|') then
    if ps.cursorNone then .error .attributeError
    else
      let t := if c = '&' then FTag.and else if c = '|' then FTag.or else FTag.not
      .ok { ps with stack := ⟨t, []⟩ :: ps.stack, st := .sOpen }
  else if (ps.st = .sMatchOrClose ∨ ps.st = .sOpenOrClose) ∧ c = ')' then
    if ps.justClosed then
      if ps.cursorNone then .error .attributeError
      else
        match ps.stack with
        | [] =>
          .ok { ps with cursorNone := true, startPos := none, st := .sOpenOrClose }
        | f :: rest =>
          let n := FilterNode.mk f.tag none f.elems
          match rest with
          | [] =>
            .ok { ps with stack := [], rootElems := ps.rootElems ++ [n],
                          startPos := none, st := .sOpenOrClose }
          | g :: rr =>
            .ok { ps with stack := ⟨g.tag, g.elems ++ [n]⟩ :: rr,
                          startPos := none, st := .sOpenOrClose }
    else
      let base := { ps with justClosed := true, skipWs := true,
                            startPos := none, st := SState.sOpenOrClose }
      match ps.startPos with
      | some sp =>
        if sp ≠ 0 then
          if ps.cursorNone then .error .attributeError
          else if currentTag ps = FTag.not ∧ 0 < currentElemsLen ps then
            .error (.ldap "Not clause in filter cannot be multiple")
          else
            match evaluate_match ((s.drop sp).take (pos - sp)) with
            | .error e => .error e
            | .ok leaf => appendLeaf leaf base
        else .ok base
      | none => .ok base
  else if (ps.st = .sMatchOrClose ∨ ps.st = .sMatchOrControl) ∧ c ≠ '(' ∧ c ≠ ')' then
    .ok { ps with skipWs := false,
                  startPos := if ps.startPos.getD 0 ≠ 0 then ps.startPos else some pos,
                  st := .sMatchOrClose }
  else
    .error (.ldap "malformed filter")

/-- Run the scanner over the enumerated characters of the filter. -/
def scanFilter (s : List Char) : List (Nat × Char) → PState → Except PyError PState
  | [], ps => .ok ps
  | pc :: rest, ps =>
    match pstep s pc.1 pc.2 ps with
    | .error e => .error e
    | .ok ps2 => scanFilter s rest ps2

/-- The scanner's initial state: expect-open-or-close, cursor at the
synthetic `ROOT`, no pending token, skipping whitespace. -/
def initPState : PState :=
  ⟨.sOpenOrClose, [], [], false, none, true, false⟩

/-- Close every operator frame still open when the scan ends, producing
the final child list of `ROOT`.  In the source the operator nodes are
appended to their parents eagerly when opened, so any frame still open at
the end of the scan is already (with the children it accumulated) an
element of its parent; folding the stack reproduces exactly that tree. -/
def collapseStack (stack : List Frame) : Option FilterNode :=
  stack.foldl (fun pending f => some (FilterNode.mk f.tag none (f.elems ++ pending.toList))) none

/-- Filter parser (`parse_filter`): precondition checks (non-empty after
trimming, balanced parenthesis counts, enclosing parentheses), the
character scan, and the final `ROOT` arity check. -/
def parse_filter (search_filter : List Char) : Except PyError FilterNode :=
  let s := pyStrip search_filter
  if s ≠ [] ∧ s.count '(' = s.count ')' ∧ s.headD ' ' = '(' ∧ s.getLastD ' ' = ')' then
    match scanFilter s s.enum initPState with
    | .error e => .error e
    | .ok ps =>
      let finalElems := ps.rootElems ++ (collapseStack ps.stack).toList
      if finalElems.length ≠ 1 then .error (.ldap "missing boolean operator in filter")
      else .ok (FilterNode.mk .root none finalElems)
  else
    .error (.ldap "invalid filter")

/-- One `Substring` CHOICE of the wire message's substring filter:
an `initial`, `any` or `final` component. -/
inductive SubstringComp where
  | initial (s : List Char)
  | any (s : List Char)
  | final (s : List Char)
deriving DecidableEq, Repr

/-- The wire-message `Filter` CHOICE of rfc4511, with the payload of the
external codec's text fields modelled as the text itself. -/
inductive WireFilter where
  | and (elements : List WireFilter)
  | or (elements : List WireFilter)
  | notFilter (inner : WireFilter)
  | equalityMatch (attributeDesc assertionValue : List Char)
  | substringFilter (ty : List Char) (substrings : List SubstringComp)
  | greaterOrEqual (attributeDesc assertionValue : List Char)
  | lessOrEqual (attributeDesc assertionValue : List Char)
  | present (attributeDesc : List Char)
  | approxMatch (attributeDesc assertionValue : List Char)
  | extensibleMatch (matchingRule : Option (List Char)) (ty : Option (List Char))
                    (matchValue : List Char) (dnAttributes : Bool)

mutual

/-- Filter compiler (`compile_filter`): recursive structural lowering of
a filter tree into the wire-message filter, dispatching on the node tag.
`NOT` compiles only `elements[0]` (raising `IndexError` when there is no
child); leaves whose assertion does not carry the keys the tag expects
raise `KeyError`; the `ROOT` tag falls into the `unknown filter` error.
Optional extensible components are set only when truthy, and
`dnAttributes` defaults to false when unset. -/
def compile_filter : FilterNode → Except PyError WireFilter
  | .mk .and _ els =>
    match compile_elements els with
    | .error e => .error e
    | .ok ws => .ok (.and ws)
  | .mk .or _ els =>
    match compile_elements els with
    | .error e => .error e
    | .ok ws => .ok (.or ws)
  | .mk .not _ els =>
    match els with
    | [] => .error .indexError
    | e :: _ =>
      match compile_filter e with
      | .error e2 => .error e2
      | .ok w => .ok (.notFilter w)
  | .mk .approx a _ =>
    match a with
    | some (.av attr v) => .ok (.approxMatch attr v)
    | _ => .error .keyError
  | .mk .greaterOrEqual a _ =>
    match a with
    | some (.av attr v) => .ok (.greaterOrEqual attr v)
    | _ => .error .keyError
  | .mk .lessOrEqual a _ =>
    match a with
    | some (.av attr v) => .ok (.lessOrEqual attr v)
    | _ => .error .keyError
  | .mk .extensible a _ =>
    match a with
    | some (.ext attr v mr dn) =>
      .ok (.extensibleMatch (if optTruthy mr then mr else none)
        (if optTruthy attr then attr else none) v (dn.getD false))
    | _ => .error .keyError
  | .mk .present a _ =>
    match a with
    | some (.pres attr) => .ok (.present attr)
    | _ => .error .keyError
  | .mk .substring a _ =>
    match a with
    | some (.sub attr ini anyL fin) =>
      let s1 := match ini with
        | some v => if v ≠ [] then [SubstringComp.initial v] else []
        | none => []
      let s2 := anyL.map SubstringComp.any
      let s3 := match fin with
        | some v => if v ≠ [] then [SubstringComp.final v] else []
        | none => []
      .ok (.substringFilter attr (s1 ++ s2 ++ s3))
    | _ => .error .keyError
  | .mk .equal a _ =>
    match a with
    | some (.av attr v) => .ok (.equalityMatch attr v)
    | _ => .error .keyError
  | .mk .root _ _ => .error (.ldap "unknown filter")

/-- Compile a list of child nodes in order, stopping at the first
error (the source's `for element in filter_node.elements` loop). -/
def compile_elements : List FilterNode → Except PyError (List WireFilter)
  | [] => .ok []
  | x :: xs =>
    match compile_filter x with
    | .error e => .error e
    | .ok w =>
      match compile_elements xs with
      | .error e => .error e
      | .ok ws => .ok (w :: ws)

end

/-- Standalone filter builder (`build_filter`):
`compile_filter(parse_filter(search_filter).elements[0])`. -/
def build_filter (search_filter : List Char) : Except PyError WireFilter :=
  match parse_filter search_filter with
  | .error e => .error e
  | .ok root =>
    match root.elements with
    | [] => .error .indexError
    | e :: _ => compile_filter e

/-- Modelled from the spec: the external `ava_to_dict` collaborator from
the protocol conversion module (a file of this repository not included
under the sources), which maps the attributeDesc/assertionValue pair of
an attribute-value assertion to its attribute and value texts (the
decompiler renders such a leaf as the text `attr`, an operator glyph and
`value`). -/
def ava_to_dict (attributeDesc assertionValue : List Char) : List Char × List Char :=
  (attributeDesc, assertionValue)

/-- Modelled from the spec: `matching_rule_assertion_to_string` returns
`str(matching_rule_assertion)`, the native textual form of the external
codec's extensible-match structure; the exact format is owned by that
external collaborator, so it is modelled here as the match-value text. -/
def matching_rule_assertion_to_string (_matchingRule _ty : Option (List Char))
    (matchValue : List Char) (_dnAttributes : Bool) : List Char :=
  matchValue

/-- The substring-reconstruction loop of the decompiler: walks the
substring components, appending `initial` with a trailing `*`, `any`
with a leading `*` only when the string built so far does not already
end in `*` plus a trailing `*`, and `final` with a leading `*`.  The
accumulator is the whole filter string built so far. -/
def substr_render : List SubstringComp → List Char → List Char
  | [], acc => acc
  | .initial v :: rest, acc =>
    substr_render rest (if v ≠ [] then acc ++ v ++ ['*'] else acc)
  | .any v :: rest, acc =>
    substr_render rest
      (if v ≠ [] then
        (if acc.getLastD ' ' = '*' then acc ++ v else acc ++ '*' :: v) ++ ['*']
      else acc)
  | .final v :: rest, acc =>
    substr_render rest (if v ≠ [] then acc ++ '*' :: v else acc)

mutual

/-- Filter decompiler (`filter_to_string`): recursive structural lifting
of a wire-message filter into text.  Note that the source emits `!` as
the operator glyph for the disjunction (`or`) branch, not `|`. -/
def filter_to_string : WireFilter → Except PyError (List Char)
  | .and els =>
    match filters_to_string els with
    | .error e => .error e
    | .ok s => .ok ('(' :: '&' :: s ++ [')'])
  | .or els =>
    match filters_to_string els with
    | .error e => .error e
    | .ok s => .ok ('(' :: '!' :: s ++ [')'])
  | .notFilter inner =>
    match filter_to_string inner with
    | .error e => .error e
    | .ok s => .ok ('(' :: '!' :: s ++ [')'])
  | .equalityMatch attr v =>
    let ava := ava_to_dict attr v
    .ok ('(' :: ava.1 ++ '=' :: ava.2 ++ [')'])
  | .substringFilter ty subs =>
    .ok (substr_render subs ('(' :: ty ++ ['=']) ++ [')'])
  | .greaterOrEqual attr v =>
    let ava := ava_to_dict attr v
    .ok ('(' :: ava.1 ++ '>' :: '=' :: ava.2 ++ [')'])
  | .lessOrEqual attr v =>
    let ava := ava_to_dict attr v
    .ok ('(' :: ava.1 ++ '<' :: '=' :: ava.2 ++ [')'])
  | .present attr =>
    .ok ('(' :: attr ++ '=' :: '*' :: [')'])
  | .approxMatch attr v =>
    let ava := ava_to_dict attr v
    .ok ('(' :: ava.1 ++ '~' :: '=' :: ava.2 ++ [')'])
  | .extensibleMatch mr ty mv dn =>
    .ok ('(' :: matching_rule_assertion_to_string mr ty mv dn ++ [')'])

/-- Decompile and concatenate the children of a boolean node in order
(the source's `for f in filter_object[...]` loops). -/
def filters_to_string : List WireFilter → Except PyError (List Char)
  | [] => .ok []
  | f :: fs =>
    match filter_to_string f with
    | .error e => .error e
    | .ok s =>
      match filters_to_string fs with
      | .error e => .error e
      | .ok s2 => .ok (s ++ s2)

end

/-- Scope enumeration of the wire message. -/
inductive Scope where
  | baseObject | singleLevel | wholeSubtree
deriving DecidableEq, Repr

/-- Alias-dereferencing enumeration of the wire message. -/
inductive DerefAliases where
  | neverDerefAliases | derefInSearching | derefFindingBaseObj | derefAlways
deriving DecidableEq, Repr

/-- Modelled from the spec: the constant `SEARCH_SCOPE_BASE_OBJECT`
imported from the client package root (not included under the sources);
its value is the protocol enumeration value `baseObject (0)` documented
in the source's SearchRequest comment. -/
def SEARCH_SCOPE_BASE_OBJECT : Nat := 0

/-- Modelled from the spec: `SEARCH_SCOPE_SINGLE_LEVEL`, protocol value
`singleLevel (1)`. -/
def SEARCH_SCOPE_SINGLE_LEVEL : Nat := 1

/-- Modelled from the spec: `SEARCH_SCOPE_WHOLE_SUBTREE`, protocol value
`wholeSubtree (2)`. -/
def SEARCH_SCOPE_WHOLE_SUBTREE : Nat := 2

/-- Modelled from the spec: `SEARCH_NEVER_DEREFERENCE_ALIASES`, protocol
value `neverDerefAliases (0)`. -/
def SEARCH_NEVER_DEREFERENCE_ALIASES : Nat := 0

/-- Modelled from the spec: `SEARCH_DEREFERENCE_IN_SEARCHING`, protocol
value `derefInSearching (1)`. -/
def SEARCH_DEREFERENCE_IN_SEARCHING : Nat := 1

/-- Modelled from the spec: `SEARCH_DEREFERENCE_FINDING_BASE_OBJECT`,
protocol value `derefFindingBaseObj (2)`. -/
def SEARCH_DEREFERENCE_FINDING_BASE_OBJECT : Nat := 2

/-- Modelled from the spec: `SEARCH_DEREFERENCE_ALWAYS`, protocol value
`derefAlways (3)`. -/
def SEARCH_DEREFERENCE_ALWAYS : Nat := 3

/-- Modelled from the spec: the `NO_ATTRIBUTES` sentinel of the client
package root (the protocol's "no attributes" attribute selector). -/
def NO_ATTRIBUTES : List Char := chars "1.1"

/-- The assembled search-request wire message. -/
structure SearchRequest where
  baseObject : List Char
  scope : Scope
  derefAliases : DerefAliases
  sizeLimit : Nat
  timeLimit : Nat
  typesOnly : Bool
  filter : WireFilter
  attributes : List (List Char)

/-- The `attributes` argument of `search_operation`: either a Python
list of attribute names, or a value of any other type — the source
distinguishes them only through `isinstance(attributes, list)`. -/
inductive AttrArg where
  | list (l : List (List Char))
  | nonList

/-- Attribute selection builder (`build_attribute_selection`): wraps each
name of the list in a `Selector` text field in order; the external text
field is modelled as the text itself, so the selection is the list. -/
def build_attribute_selection (attribute_list : List (List Char)) : List (List Char) :=
  attribute_list

/-- Search operation builder (`search_operation`): validates the scope
and dereference-aliases arguments, parses and compiles the filter string
(`compile_filter(parse_filter(search_filter).elements[0])`), normalizes
a non-list `attributes` argument to `[NO_ATTRIBUTES]`, and assembles the
search-request message. -/
def search_operation (search_base search_filter : List Char)
    (search_scope dereference_aliases : Nat) (attributes : AttrArg)
    (size_limit time_limit : Nat) (types_only : Bool) :
    Except PyError SearchRequest :=
  match (if search_scope = SEARCH_SCOPE_BASE_OBJECT then .ok Scope.baseObject
         else if search_scope = SEARCH_SCOPE_SINGLE_LEVEL then .ok Scope.singleLevel
         else if search_scope = SEARCH_SCOPE_WHOLE_SUBTREE then .ok Scope.wholeSubtree
         else .error (PyError.ldap "invalid scope type") : Except PyError Scope) with
  | .error e => .error e
  | .ok scope =>
  match (if dereference_aliases = SEARCH_NEVER_DEREFERENCE_ALIASES then .ok DerefAliases.neverDerefAliases
         else if dereference_aliases = SEARCH_DEREFERENCE_IN_SEARCHING then .ok DerefAliases.derefInSearching
         else if dereference_aliases = SEARCH_DEREFERENCE_FINDING_BASE_OBJECT then .ok DerefAliases.derefFindingBaseObj
         else if dereference_aliases = SEARCH_DEREFERENCE_ALWAYS then .ok DerefAliases.derefAlways
         else .error (PyError.ldap "invalid dereference aliases type") : Except PyError DerefAliases) with
  | .error e => .error e
  | .ok deref =>
  match (match parse_filter search_filter with
         | .error e => .error e
         | .ok root =>
           match root.elements with
           | [] => .error .indexError
           | e :: _ => compile_filter e : Except PyError WireFilter) with
  | .error e => .error e
  | .ok filt =>
    .ok { baseObject := search_base, scope := scope, derefAliases := deref,
          sizeLimit := size_limit, timeLimit := time_limit, typesOnly := types_only,
          filter := filt,
          attributes := build_attribute_selection
            (match attributes with
             | .list l => l
             | .nonList => [NO_ATTRIBUTES]) }

/-- Decode a received attribute's value list (`decode_vals`): `None` for
an empty value list, otherwise the text of each non-empty value (the
external `str` decoding of a text value is modelled as the text itself);
empty values are filtered out by the `if val` comprehension guard. -/
def decode_vals (vals : List (List Char)) : Option (List (List Char)) :=
  if vals.isEmpty then none
  else some (vals.filter (fun v => !v.isEmpty))

/-- Python dictionary assignment `d[k] = v` on an insertion-ordered
dictionary represented as an association list: overwrite in place when
the key exists, else append. -/
def dictInsert (k : List Char) (v : α) : List (List Char × α) → List (List Char × α)
  | [] => [(k, v)]
  | (k2, v2) :: t => if k2 = k then (k, v) :: t else (k2, v2) :: dictInsert k v t

/-- Decode the attribute list of an entry response into the attribute
dictionary (`attributes_to_dict`): one dictionary assignment
`attributes[str(attribute['type'])] = decode_vals(attribute['vals'])`
per received attribute, in order. -/
def attributes_to_dict (attribute_list : List (List Char × List (List Char))) :
    List (List Char × Option (List (List Char))) :=
  attribute_list.foldl (fun d a => dictInsert a.1 (decode_vals a.2) d) []

/-- Decode a received attribute's raw value list (`decode_raw_vals`):
`None` for an empty list, otherwise every value as bytes (modelled as
the value itself); unlike `decode_vals` nothing is filtered. -/
def decode_raw_vals (vals : List (List Char)) : Option (List (List Char)) :=
  if vals.isEmpty then none else some vals

/-- Decode the attribute list into the parallel raw-bytes dictionary
(`raw_attributes_to_dict`). -/
def raw_attributes_to_dict (attribute_list : List (List Char × List (List Char))) :
    List (List Char × Option (List (List Char))) :=
  attribute_list.foldl (fun d a => dictInsert a.1 (decode_raw_vals a.2) d) []

/-- A received search-result entry message: the object name and the
attribute list, each attribute a type with its value list. -/
structure EntryResponse where
  object : List Char
  attributes : List (List Char × List (List Char))

/-- The plain record decoded from an entry response. -/
structure EntryRecord where
  dn : List Char
  attributes : List (List Char × Option (List (List Char)))
  raw_attributes : List (List Char × Option (List (List Char)))

/-- Entry response decoder (`search_result_entry_response_to_dict`). -/
def search_result_entry_response_to_dict (response : EntryResponse) : EntryRecord :=
  { dn := response.object,
    attributes := attributes_to_dict response.attributes,
    raw_attributes := raw_attributes_to_dict response.attributes }

/-! Supporting lemmas about the string primitives and the dictionary,
used by several claim theorems. -/

theorem splitFirst_append (sep : List Char) :
    ∀ s l r, splitFirst sep s = some (l, r) → s = l ++ sep ++ r := by
  intro s
  induction s with
  | nil =>
    intro l r h
    simp only [splitFirst] at h
    by_cases he : sep.isEmpty
    · rw [if_pos he] at h
      simp only [Option.some.injEq, Prod.mk.injEq] at h
      obtain ⟨h3, h4⟩ := h
      subst h3; subst h4
      simp_all [List.isEmpty_iff]
    · rw [if_neg he] at h
      cases h
  | cons c t ih =>
    intro l r h
    simp only [splitFirst] at h
    by_cases hp : sep.isPrefixOf (c :: t)
    · rw [if_pos hp] at h
      obtain ⟨u, hu⟩ := List.isPrefixOf_iff_prefix.mp hp
      simp only [Option.some.injEq, Prod.mk.injEq] at h
      obtain ⟨h3, h4⟩ := h
      subst h3; subst h4
      rw [List.nil_append, ← hu, List.drop_left]
    · rw [if_neg hp] at h
      cases hsf : splitFirst sep t with
      | none => rw [hsf] at h; cases h
      | some p =>
        obtain ⟨l2, r2⟩ := p
        rw [hsf] at h
        simp only [Option.some.injEq, Prod.mk.injEq] at h
        obtain ⟨h3, h4⟩ := h
        subst h3; subst h4
        have h5 := ih l2 r2 hsf
        simp [h5]

theorem splitFirst_isSome (sep : List Char) :
    ∀ s, (splitFirst sep s).isSome = strContains s sep := by
  intro s
  induction s with
  | nil =>
    simp only [splitFirst, strContains]
    by_cases he : sep.isEmpty
    · rw [if_pos he, he]; rfl
    · rw [if_neg he]
      simp only [Option.isSome_none]
      exact (Bool.not_eq_true sep.isEmpty ▸ he).symm
  | cons c t ih =>
    simp only [splitFirst, strContains]
    by_cases hp : sep.isPrefixOf (c :: t)
    · rw [if_pos hp, hp]; rfl
    · rw [if_neg hp]
      have hpf : sep.isPrefixOf (c :: t) = false := by
        exact Bool.not_eq_true _ ▸ hp
      rw [hpf, Bool.false_or]
      cases hsf : splitFirst sep t with
      | none => rw [hsf] at ih; exact ih
      | some p => rw [hsf] at ih; exact ih

theorem splitFirst_singleton_not_mem (a : Char) :
    ∀ s l r, splitFirst [a] s = some (l, r) → a ∉ l := by
  intro s
  induction s with
  | nil =>
    intro l r h
    simp [splitFirst] at h
  | cons c t ih =>
    intro l r h
    simp only [splitFirst] at h
    by_cases hp : [a].isPrefixOf (c :: t)
    · rw [if_pos hp] at h
      simp only [Option.some.injEq, Prod.mk.injEq] at h
      obtain ⟨h3, _⟩ := h
      subst h3
      exact List.not_mem_nil a
    · rw [if_neg hp] at h
      cases hsf : splitFirst [a] t with
      | none => rw [hsf] at h; cases h
      | some p =>
        obtain ⟨l2, r2⟩ := p
        rw [hsf] at h
        simp only [Option.some.injEq, Prod.mk.injEq] at h
        obtain ⟨h3, h4⟩ := h
        subst h3; subst h4
        have hne : a ≠ c := by
          intro hac
          subst hac
          exact hp (by simp [List.isPrefixOf])
        intro hmem
        rcases List.mem_cons.mp hmem with h5 | h5
        · exact hne h5
        · exact ih l2 r2 hsf h5

theorem pySplitAux_ne_nil (sep : List Char) :
    ∀ fuel s acc, pySplitAux sep fuel s acc ≠ [] := by
  intro fuel
  induction fuel with
  | zero =>
    intro s acc
    cases s <;> simp [pySplitAux]
  | succ n ih =>
    intro s acc
    cases s with
    | nil => simp [pySplitAux]
    | cons c t =>
      simp only [pySplitAux]
      by_cases hp : sep.isPrefixOf (c :: t)
      · rw [if_pos hp]; simp
      · rw [if_neg hp]; exact ih t (c :: acc)

theorem pySplitAux_join (a : Char) :
    ∀ fuel s acc, s.length ≤ fuel →
      joinSep [a] (pySplitAux [a] fuel s acc) = acc.reverse ++ s := by
  intro fuel
  induction fuel with
  | zero =>
    intro s acc h
    have hs : s = [] := List.eq_nil_of_length_eq_zero (Nat.le_zero.mp h)
    subst hs
    simp [pySplitAux, joinSep]
  | succ n ih =>
    intro s acc h
    cases s with
    | nil => simp [pySplitAux, joinSep]
    | cons c t =>
      simp only [pySplitAux]
      have hlen : t.length ≤ n := Nat.le_of_succ_le_succ (by simpa using h)
      by_cases hp : [a].isPrefixOf (c :: t)
      · rw [if_pos hp]
        have hac : a = c := by
          obtain ⟨u, hu⟩ := List.isPrefixOf_iff_prefix.mp hp
          simpa using congrArg (fun l => l.headD ' ') hu
        have hdrop : t.drop ([a].length - 1) = t := by simp
        rw [hdrop]
        cases hrec : pySplitAux [a] n t [] with
        | nil => exact absurd hrec (pySplitAux_ne_nil [a] n t [])
        | cons q qs =>
          have hjoin : joinSep [a] (pySplitAux [a] n t []) = t := by
            simpa using ih t [] hlen
          rw [hrec] at hjoin
          simp only [joinSep]
          rw [hjoin, hac]
          simp
      · rw [if_neg hp]
        have := ih t (c :: acc) hlen
        rw [this]
        simp

theorem pySplitAux_not_mem (a : Char) :
    ∀ fuel s acc, s.length ≤ fuel → a ∉ acc →
      ∀ p ∈ pySplitAux [a] fuel s acc, a ∉ p := by
  intro fuel
  induction fuel with
  | zero =>
    intro s acc h hacc p hmem
    have hs : s = [] := List.eq_nil_of_length_eq_zero (Nat.le_zero.mp h)
    subst hs
    simp only [pySplitAux, List.mem_singleton] at hmem
    subst hmem
    simpa using hacc
  | succ n ih =>
    intro s acc h hacc p hmem
    cases s with
    | nil =>
      simp only [pySplitAux, List.mem_singleton] at hmem
      subst hmem
      simpa using hacc
    | cons c t =>
      simp only [pySplitAux] at hmem
      have hlen : t.length ≤ n := Nat.le_of_succ_le_succ (by simpa using h)
      by_cases hp : [a].isPrefixOf (c :: t)
      · rw [if_pos hp] at hmem
        have hdrop : t.drop ([a].length - 1) = t := by simp
        rw [hdrop] at hmem
        rcases List.mem_cons.mp hmem with h5 | h5
        · subst h5; simpa using hacc
        · exact ih t [] hlen (List.not_mem_nil a) p h5
      · rw [if_neg hp] at hmem
        have hne : a ≠ c := by
          intro hac
          subst hac
          exact hp (by simp [List.isPrefixOf])
        refine ih t (c :: acc) hlen ?_ p hmem
        intro hmc
        rcases List.mem_cons.mp hmc with h6 | h6
        · exact hne h6
        · exact hacc h6

/-- The parts produced by splitting on a single character rejoin to the
original string: `pySplit` is a genuine splitting. -/
theorem pySplit_join (a : Char) (s : List Char) :
    joinSep [a] (pySplit [a] s) = s := by
  simpa using pySplitAux_join a s.length s [] (Nat.le_refl _)

/-- No part produced by splitting on a single character contains that
character. -/
theorem pySplit_not_mem (a : Char) (s : List Char) :
    ∀ p ∈ pySplit [a] s, a ∉ p :=
  pySplitAux_not_mem a s.length s [] (Nat.le_refl _) (List.not_mem_nil a)

theorem lookup_dictInsert {α : Type} (k k2 : List Char) (v : α) :
    ∀ d, (dictInsert k2 v d).lookup k = if k = k2 then some v else d.lookup k := by
  intro d
  induction d with
  | nil =>
    by_cases h : k = k2
    · subst h; simp [dictInsert, List.lookup]
    · simp [dictInsert, List.lookup, beq_eq_false_iff_ne.mpr h, h]
  | cons p t ih =>
    obtain ⟨ka, va⟩ := p
    simp only [dictInsert]
    by_cases hka : ka = k2
    · rw [if_pos hka]
      by_cases hk : k = k2
      · subst hk
        simp [List.lookup]
      · have hkka : k ≠ ka := fun hc => hk (hc.trans hka)
        simp [List.lookup, beq_eq_false_iff_ne.mpr hk, beq_eq_false_iff_ne.mpr hkka, hk]
    · rw [if_neg hka]
      by_cases hk : k = ka
      · subst hk
        have hk2 : k ≠ k2 := fun hc => hka hc
        simp [List.lookup, hk2]
      · simp [List.lookup, beq_eq_false_iff_ne.mpr hk, ih]

theorem foldl_dictInsert_isSome (name : List Char) :
    ∀ (l : List (List Char × List (List Char)))
      (d : List (List Char × Option (List (List Char)))),
      ((∃ vals, (name, vals) ∈ l) ∨ (d.lookup name).isSome = true) →
      (((l.foldl (fun d a => dictInsert a.1 (decode_vals a.2) d) d).lookup name)).isSome = true := by
  intro l
  induction l with
  | nil =>
    intro d h
    rcases h with ⟨vals, hmem⟩ | h
    · exact absurd hmem (List.not_mem_nil _)
    · simpa using h
  | cons a t ih =>
    intro d h
    obtain ⟨ka, va⟩ := a
    simp only [List.foldl_cons]
    refine ih (dictInsert ka (decode_vals va) d) ?_
    rcases h with ⟨vals, hmem⟩ | h
    · rcases List.mem_cons.mp hmem with h5 | h5
      · right
        have hk : name = ka := congrArg Prod.fst h5
        rw [lookup_dictInsert, if_pos hk]
        rfl
      · exact Or.inl ⟨vals, h5⟩
    · right
      rw [lookup_dictInsert]
      by_cases hk : name = ka
      · rw [if_pos hk]; rfl
      · rw [if_neg hk]; exact h

/-! Claim theorems. -/

/-- Claim C1: the spec says a leaf clause containing `~=` is split on the
first occurrence of `~=` into attr and value, so that
`evaluate_match("cn~=Bob")` yields an approximate-match node with attr
`cn` and value `Bob`.  The code instead performs a 3-way tuple unpack of
`match.split('~=')`, which on a clause with a single `~=` yields only two
parts and raises `ValueError`: the split of `cn~=Bob` has two parts and
`evaluate_match` fails with `ValueError` instead of returning the node. -/
theorem c1_theorem :
    evaluate_match (chars "cn~=Bob") = Except.error PyError.valueError ∧
    pySplit (chars "~=") (chars "cn~=Bob") = [chars "cn", chars "Bob"] :=
  ⟨rfl, rfl⟩

/-- Claim C2: the spec says decompiling the compiled parse of a valid
filter re-parses to a structurally equal tree, in particular for a
disjunction such as `(|(cn=a)(cn=b))`.  The decompiler emits `!` (the
NOT glyph) for the `or` branch, so the decompiled text of that filter is
`(!(cn=a)(cn=b))`, which does not re-parse at all: it fails with
`Not clause in filter cannot be multiple`. -/
theorem c2_theorem :
    (build_filter (chars "(|(cn=a)(cn=b))")).bind filter_to_string =
      Except.ok (chars "(!(cn=a)(cn=b))") ∧
    parse_filter (chars "(!(cn=a)(cn=b))") =
      Except.error (PyError.ldap "Not clause in filter cannot be multiple") :=
  ⟨rfl, rfl⟩

/-- Claim C3: the spec says `validate_assertion_value` replaces the
escape `\00` by the NUL character, so that the result on `a\00b`
contains NUL.  The code computes `value.replace(r'\00', chr(0))` but
discards the result, so the value is returned with the `\00` sequence
intact (while e.g. the `\2a` replacement does work). -/
theorem c3_theorem :
    validate_assertion_value (chars "a\\00b") = chars "a\\00b" ∧
    chars "a\\00b" ≠ chars "a" ++ Char.ofNat 0 :: chars "b" ∧
    validate_assertion_value (chars "B\\2ab") = chars "B*b" :=
  ⟨rfl, by decide, rfl⟩

/-- Claim C4: the spec says `parse_filter` either returns a tree or
fails with one of the enumerated `LDAPException` messages, and that no
unpacking error or attribute access on a missing parent can escape.  Both
escape: `(cn~=Bob)` raises `ValueError` (the 3-way unpack of
`split('~=')` on two parts), and `(&(a=b)))(&(x=y)` — balanced
parenthesis counts with an excess of closing parentheses in the middle —
ascends the cursor past `ROOT` to `None` and then raises
`AttributeError` when the next boolean operator is appended. -/
theorem c4_theorem :
    parse_filter (chars "(cn~=Bob)") = Except.error PyError.valueError ∧
    parse_filter (chars "(&(a=b)))(&(x=y)") = Except.error PyError.attributeError :=
  ⟨rfl, rfl⟩

/-- Claim C5 (counterexample): the claim says `parse_filter("()")` fails
with `missing boolean operator in filter`; it does not — the scanner
fails earlier. -/
theorem c5_counterexample :
    parse_filter (chars "()") = Except.error (PyError.ldap "malformed filter") ∧
    PyError.ldap "malformed filter" ≠ PyError.ldap "missing boolean operator in filter" :=
  ⟨rfl, by decide⟩

/-- Claim C5 (amended): `parse_filter("()")` fails with
`malformed filter`: the closing parenthesis arrives while the scanner is
in the expect-match-or-control state, which accepts no `)`; the
`missing boolean operator in filter` error is reserved for strings that
scan cleanly but leave `ROOT` without exactly one child. -/
theorem c5_theorem :
    parse_filter (chars "()") = Except.error (PyError.ldap "malformed filter") :=
  rfl

/-- Claim C8 (counterexample): the claim says appending a second child to
a `NOT` node during parsing fails with
`Not clause in filter cannot be multiple`.  The check guards only the
leaf-append path, not the boolean-operator append: `(!(cn=Bob)(&(sn=X)))`
parses successfully into a `NOT` node with two children (a leaf and an
`AND` subtree). -/
theorem c8_counterexample :
    parse_filter (chars "(!(cn=Bob)(&(sn=X)))") =
      Except.ok (FilterNode.mk .root none
        [FilterNode.mk .not none
          [FilterNode.mk .equal (some (.av (chars "cn") (chars "Bob"))) [],
           FilterNode.mk .and none
             [FilterNode.mk .equal (some (.av (chars "sn") (chars "X"))) []]]]) :=
  rfl

/-- Claim C8 (amended): during parsing, appending a second *leaf* (match
clause) child to a `NOT` node fails with
`Not clause in filter cannot be multiple` — the check guards only the
leaf-append path of the scanner, and a boolean-operator child bypasses
it; in particular `(!(cn=Bob)(sn=X))` fails with that error, while a
`NOT` node with exactly one child parses successfully. -/
theorem c8_theorem :
    (∀ (s : List Char) (pos : Nat) (ps : PState) (sp : Nat),
      ps.st = SState.sMatchOrClose →
      ps.justClosed = false →
      ps.startPos = some sp →
      sp ≠ 0 →
      ps.cursorNone = false →
      currentTag ps = FTag.not →
      0 < currentElemsLen ps →
      pstep s pos ')' ps = Except.error (PyError.ldap "Not clause in filter cannot be multiple"))
    ∧ parse_filter (chars "(!(cn=Bob)(sn=X))") =
        Except.error (PyError.ldap "Not clause in filter cannot be multiple")
    ∧ parse_filter (chars "(!(cn=Bob))") =
        Except.ok (FilterNode.mk .root none
          [FilterNode.mk .not none
            [FilterNode.mk .equal (some (.av (chars "cn") (chars "Bob"))) []]]) := by
  refine ⟨?_, rfl, rfl⟩
  intro s pos ps sp hst hjc hsp hz hcn htag hlen
  have hA : isPySpace ')' = false := by decide
  have hB : ((')' : Char) = '(') = False := by simp
  have hC : (SState.sMatchOrClose = SState.sOpen) = False := by simp
  have hD : (SState.sMatchOrClose = SState.sOpenOrClose) = False := by simp
  have hE : (SState.sMatchOrClose = SState.sMatchOrControl) = False := by simp
  simp only [pstep, hst, hjc, hsp, hcn, hA, hB, hC, hD, hE, htag, hlen]
  simp [hz, hlen, htag]

/-- Claim C8 (witness): the general leaf-append rule of `c8_theorem`
applied at the scanner state reached by `(!(cn=Bob)(sn=X))` just before
its second leaf is finalized: the `NOT` frame already holds the first
leaf, the token `sn=X` started at offset 11, and the close at offset 15
raises the error. -/
theorem c8_witness :
    pstep (chars "(!(cn=Bob)(sn=X))") 15 ')'
      ⟨SState.sMatchOrClose,
       [⟨FTag.not, [FilterNode.mk FTag.equal (some (.av (chars "cn") (chars "Bob"))) []]⟩],
       [], false, some 11, false, false⟩ =
      Except.error (PyError.ldap "Not clause in filter cannot be multiple") :=
  c8_theorem.1 (chars "(!(cn=Bob)(sn=X))") 15
    ⟨SState.sMatchOrClose,
     [⟨FTag.not, [FilterNode.mk FTag.equal (some (.av (chars "cn") (chars "Bob"))) []]⟩],
     [], false, some 11, false, false⟩ 11
    rfl rfl rfl (by decide) rfl rfl (by decide)

/-- Claim C6 (counterexample): the claim says an empty `attributes` list
is normalized to the single `NO_ATTRIBUTES` selector; it is not — the
source only tests `isinstance(attributes, list)`, and an empty list is a
list, so the built request carries an empty attribute selection. -/
theorem c6_counterexample :
    (search_operation (chars "o=test") (chars "(cn=a)") SEARCH_SCOPE_BASE_OBJECT
        SEARCH_NEVER_DEREFERENCE_ALIASES (AttrArg.list []) 0 0 false).map
      SearchRequest.attributes = Except.ok [] ∧
    ([] : List (List Char)) ≠ [NO_ATTRIBUTES] :=
  ⟨rfl, by decide⟩

/-- Claim C6 (amended): in `search_operation` only a non-list
`attributes` argument is normalized to `[NO_ATTRIBUTES]`; a list —
including the empty list — is passed to the attribute-selection builder
as-is, so `attributes = []` produces an empty attribute selection rather
than the `NO_ATTRIBUTES` sentinel. -/
theorem c6_theorem :
    ∀ (base f : List Char) (sc da sl tl : Nat) (tOnly : Bool) (req : SearchRequest),
      (search_operation base f sc da AttrArg.nonList sl tl tOnly = Except.ok req →
        req.attributes = [NO_ATTRIBUTES]) ∧
      (∀ l, search_operation base f sc da (AttrArg.list l) sl tl tOnly = Except.ok req →
        req.attributes = build_attribute_selection l) := by
  intro base f sc da sl tl tOnly req
  constructor
  · intro h
    unfold search_operation at h
    split at h
    · exact Except.noConfusion h
    · split at h
      · exact Except.noConfusion h
      · split at h
        · exact Except.noConfusion h
        · injection h with h2
          subst h2
          rfl
  · intro l h
    unfold search_operation at h
    split at h
    · exact Except.noConfusion h
    · split at h
      · exact Except.noConfusion h
      · split at h
        · exact Except.noConfusion h
        · injection h with h2
          subst h2
          rfl

/-- Claim C6 (witness): `c6_theorem` applied at concrete arguments on
which `search_operation` succeeds with a non-list `attributes` argument,
its success hypothesis discharged by evaluation. -/
theorem c6_witness :
    SearchRequest.attributes ⟨chars "o=w", .baseObject, .neverDerefAliases, 1, 2, true,
      WireFilter.equalityMatch (chars "cn") (chars "a"), [NO_ATTRIBUTES]⟩ =
      [NO_ATTRIBUTES] :=
  (c6_theorem (chars "o=w") (chars "(cn=a)") SEARCH_SCOPE_BASE_OBJECT
    SEARCH_NEVER_DEREFERENCE_ALIASES 1 2 true
    ⟨chars "o=w", .baseObject, .neverDerefAliases, 1, 2, true,
      WireFilter.equalityMatch (chars "cn") (chars "a"), [NO_ATTRIBUTES]⟩).1 rfl

/-- Claim C7 (counterexample): the claim says an attribute whose value
list is empty becomes an absent entry of the decoded attribute map (its
name is not a key).  In the code `attributes[str(type)] = decode_vals(vals)`
is executed unconditionally and `decode_vals` returns `None` for an empty
list, so the name is present as a key mapped to `None`. -/
theorem c7_counterexample :
    (attributes_to_dict [(chars "cn", ([] : List (List Char)))]).lookup (chars "cn") =
      some none ∧
    some (none : Option (List (List Char))) ≠ none :=
  ⟨rfl, by simp⟩

/-- Claim C7 (amended): the decoded attribute map filters out empty
values, and an attribute whose value list is empty becomes a key mapped
to `None` (Python's null placeholder) — the key stays present in the
map, rather than being absent or mapped to an empty list. -/
theorem c7_theorem :
    (∀ (l : List (List Char × List (List Char))) (name : List Char) (vals : List (List Char)),
      (name, vals) ∈ l → ((attributes_to_dict l).lookup name).isSome = true)
    ∧ (∀ name : List Char, attributes_to_dict [(name, [])] = [(name, none)])
    ∧ (∀ (name : List Char) (vs : List (List Char)), vs ≠ [] →
        attributes_to_dict [(name, vs)] =
          [(name, some (vs.filter (fun v => !v.isEmpty)))]) := by
  refine ⟨?_, ?_, ?_⟩
  · intro l name vals hmem
    exact foldl_dictInsert_isSome name l [] (Or.inl ⟨vals, hmem⟩)
  · intro name
    simp [attributes_to_dict, dictInsert, decode_vals]
  · intro name vs hvs
    simp [attributes_to_dict, dictInsert, decode_vals, List.isEmpty_iff, hvs]

/-- Claim C7 (witness): `c7_theorem` applied at a one-attribute entry
with a non-empty value list and at the empty-value case. -/
theorem c7_witness :
    ((attributes_to_dict [(chars "cn", [chars "x"])]).lookup (chars "cn")).isSome = true ∧
    attributes_to_dict [(chars "sn", [])] = [(chars "sn", none)] ∧
    attributes_to_dict [(chars "cn", [chars "x", []])] =
      [(chars "cn", some [chars "x"])] :=
  ⟨c7_theorem.1 [(chars "cn", [chars "x"])] (chars "cn") [chars "x"] (by simp),
   c7_theorem.2.1 (chars "sn"),
   by
    have h := c7_theorem.2.2 (chars "cn") [chars "x", []] (by simp)
    simpa using h⟩

/-- Claim C9: a leaf clause containing both `=` and `*` that matches none
of the earlier classifier rules is classified as a substring match:
the clause splits at the first `=` (the part before it contains no `=`)
into the attr and a value; the value splits on `*` into segments which
rejoin to the value and contain no `*`; the first segment (if non-empty)
becomes `initial`, the last (if non-empty) becomes `final`, the interior
non-empty segments in order become `any`, each normalized independently;
and in particular `(cn=*ob*b*)` parses to a substring leaf with no
initial, `any = [ob, b]` and no final. -/
theorem c9_theorem :
    (∀ m1 : List Char,
      strContains (pyStrip m1) (chars "~=") = false →
      strContains (pyStrip m1) (chars ">=") = false →
      strContains (pyStrip m1) (chars "<=") = false →
      strContains (pyStrip m1) (chars ":=") = false →
      strEndsWith (pyStrip m1) (chars "=*") = false →
      strContains (pyStrip m1) ['='] = true →
      strContains (pyStrip m1) ['*'] = true →
      pyStrip m1 =
        (pyPartition ['='] (pyStrip m1)).1 ++ '=' :: (pyPartition ['='] (pyStrip m1)).2 ∧
      '=' ∉ (pyPartition ['='] (pyStrip m1)).1 ∧
      (pyPartition ['='] (pyStrip m1)).2 =
        joinSep ['*'] (pySplit ['*'] (pyPartition ['='] (pyStrip m1)).2) ∧
      (∀ p ∈ pySplit ['*'] (pyPartition ['='] (pyStrip m1)).2, '*' ∉ p) ∧
      evaluate_match m1 = Except.ok (FilterNode.mk FTag.substring
        (some (Assertion.sub (pyPartition ['='] (pyStrip m1)).1
          (if (pySplit ['*'] (pyPartition ['='] (pyStrip m1)).2).headD [] ≠ [] then
            some (validate_assertion_value
              ((pySplit ['*'] (pyPartition ['='] (pyStrip m1)).2).headD []))
           else none)
          ((((pySplit ['*'] (pyPartition ['='] (pyStrip m1)).2).drop 1).dropLast.filter
              (fun ss => ss ≠ [])).map validate_assertion_value)
          (if (pySplit ['*'] (pyPartition ['='] (pyStrip m1)).2).getLastD [] ≠ [] then
            some (validate_assertion_value
              ((pySplit ['*'] (pyPartition ['='] (pyStrip m1)).2).getLastD []))
           else none))) []))
    ∧ parse_filter (chars "(cn=*ob*b*)") = Except.ok (FilterNode.mk .root none
        [FilterNode.mk .substring
          (some (.sub (chars "cn") none [chars "ob", chars "b"] none)) []]) := by
  refine ⟨?_, rfl⟩
  intro m1 h1 h2 h3 h4 h5 h6 h7
  have hsome : (splitFirst ['='] (pyStrip m1)).isSome = true := by
    rw [splitFirst_isSome]; exact h6
  obtain ⟨pr, hsf⟩ := Option.isSome_iff_exists.mp hsome
  obtain ⟨attr, rest⟩ := pr
  have hpp : pyPartition ['='] (pyStrip m1) = (attr, rest) := by
    simp [pyPartition, hsf]
  rw [hpp]
  refine ⟨?_, ?_, ?_, ?_, ?_⟩
  · have := splitFirst_append ['='] (pyStrip m1) attr rest hsf
    simpa using this
  · exact splitFirst_singleton_not_mem '=' (pyStrip m1) attr rest hsf
  · exact (pySplit_join '*' rest).symm
  · exact pySplit_not_mem '*' rest
  · simp only [evaluate_match, h1, h2, h3, h4, h5, h6, h7, hpp]
    simp

/-- Claim C9 (witness): `c9_theorem` applied to the clause `cn=*ob*b*`,
all classifier hypotheses discharged by evaluation. -/
theorem c9_witness :
    pyStrip (chars "cn=*ob*b*") =
      (pyPartition ['='] (pyStrip (chars "cn=*ob*b*"))).1 ++
        '=' :: (pyPartition ['='] (pyStrip (chars "cn=*ob*b*"))).2 ∧
    '=' ∉ (pyPartition ['='] (pyStrip (chars "cn=*ob*b*"))).1 ∧
    (pyPartition ['='] (pyStrip (chars "cn=*ob*b*"))).2 =
      joinSep ['*'] (pySplit ['*'] (pyPartition ['='] (pyStrip (chars "cn=*ob*b*"))).2) ∧
    (∀ p ∈ pySplit ['*'] (pyPartition ['='] (pyStrip (chars "cn=*ob*b*"))).2, '*' ∉ p) ∧
    evaluate_match (chars "cn=*ob*b*") = Except.ok (FilterNode.mk FTag.substring
      (some (Assertion.sub (pyPartition ['='] (pyStrip (chars "cn=*ob*b*"))).1
        (if (pySplit ['*'] (pyPartition ['='] (pyStrip (chars "cn=*ob*b*"))).2).headD [] ≠ [] then
          some (validate_assertion_value
            ((pySplit ['*'] (pyPartition ['='] (pyStrip (chars "cn=*ob*b*"))).2).headD []))
         else none)
        ((((pySplit ['*'] (pyPartition ['='] (pyStrip (chars "cn=*ob*b*"))).2).drop 1).dropLast.filter
            (fun ss => ss ≠ [])).map validate_assertion_value)
        (if (pySplit ['*'] (pyPartition ['='] (pyStrip (chars "cn=*ob*b*"))).2).getLastD [] ≠ [] then
          some (validate_assertion_value
            ((pySplit ['*'] (pyPartition ['='] (pyStrip (chars "cn=*ob*b*"))).2).getLastD []))
         else none))) []) :=
  c9_theorem.1 (chars "cn=*ob*b*") rfl rfl rfl rfl rfl rfl rfl

/-- Claim C10: whenever `search_operation` succeeds, the wire filter it
placed in the request's `filter` field is exactly what the standalone
helper `build_filter` computes for the same filter string — both evaluate
`compile_filter(parse_filter(search_filter).elements[0])`. -/
theorem c10_theorem :
    ∀ (base f : List Char) (sc da : Nat) (att : AttrArg) (sl tl : Nat)
      (tOnly : Bool) (req : SearchRequest),
      search_operation base f sc da att sl tl tOnly = Except.ok req →
      build_filter f = Except.ok req.filter := by
  intro base f sc da att sl tl tOnly req h
  unfold search_operation at h
  split at h
  · exact Except.noConfusion h
  · split at h
    · exact Except.noConfusion h
    · split at h
      · exact Except.noConfusion h
      · rename_i filt heq
        injection h with h2
        subst h2
        unfold build_filter
        exact heq

/-- Claim C10 (witness): `c10_theorem` applied at concrete arguments on
which `search_operation` succeeds, its success hypothesis discharged by
evaluation: the filter field of the request built for `(cn=a)` is the
equality-match wire filter, which `build_filter` also returns. -/
theorem c10_witness :
    build_filter (chars "(cn=a)") =
      Except.ok (SearchRequest.filter
        ⟨chars "o=w", .baseObject, .neverDerefAliases, 0, 0, false,
         WireFilter.equalityMatch (chars "cn") (chars "a"), [NO_ATTRIBUTES]⟩) :=
  c10_theorem (chars "o=w") (chars "(cn=a)") SEARCH_SCOPE_BASE_OBJECT
    SEARCH_NEVER_DEREFERENCE_ALIASES AttrArg.nonList 0 0 false
    ⟨chars "o=w", .baseObject, .neverDerefAliases, 0, 0, false,
     WireFilter.equalityMatch (chars "cn") (chars "a"), [NO_ATTRIBUTES]⟩ rfl
